import Mathlib

/-!
Shallow embedding of `pipecatmem0.py`, a latency-benchmark harness over the
mem0 `AsyncMemoryClient`.  Network effects are modelled by an environment
oracle (`Nat → SearchOutcome`) that fixes, for each search call a run issues,
whether that call returns (with an observed latency and item count) or raises
(with an exception message).  Raising Python code is modelled with `Except`;
printed output relevant to the claims is modelled as log lines; the lifecycle
of clients and the ordering of requests are modelled as an event trace.
Durations are rationals (`ℚ`).
-/

/-- Outcome of one `client.search(query, user_id=user_id)` call, as fixed by
the test environment: either the call returns after `latency` seconds with
`items` result items, or it raises an exception carrying message `msg`. -/
inductive SearchOutcome where
  | ok (latency : ℚ) (items : Nat)
  | err (msg : String)
deriving DecidableEq, Repr

/-- `await client.search(...)` as a fallible call: returns the (latency, item
count) pair, or the exception message. -/
def searchCall (o : SearchOutcome) : Except String (ℚ × Nat) :=
  match o with
  | .ok l i => .ok (l, i)
  | .err m => .error m

/-- Whether the search call returned without raising. -/
def SearchOutcome.isOk (o : SearchOutcome) : Bool :=
  match o with
  | .ok _ _ => true
  | .err _ => false

/-- `httpx.Limits(...)` as built in `create_ultra_optimized_client`. -/
structure Limits where
  max_keepalive_connections : Nat
  max_connections : Nat
  keepalive_expiry : ℚ
deriving DecidableEq, Repr

/-- `httpx.Timeout(...)` as built in `create_ultra_optimized_client`. -/
structure Timeout where
  connect : ℚ
  read : ℚ
  write : ℚ
  pool : ℚ
deriving DecidableEq, Repr

/-- `httpx.AsyncHTTPTransport(...)` as built in `create_ultra_optimized_client`. -/
structure Transport where
  http2 : Bool
  retries : Nat
deriving DecidableEq, Repr

/-- The bundle of transport parameters an `httpx.AsyncClient` is constructed
with (the spec's `ClientConfig`). -/
structure ClientConfig where
  limits : Limits
  timeout : Timeout
  transport : Transport
  headers : List (String × String)
  http2 : Bool
  follow_redirects : Bool
  trust_env : Bool
deriving DecidableEq, Repr

/-- An `AsyncMemoryClient` wrapping a configured `httpx.AsyncClient`. -/
structure Client where
  api_key : String
  config : ClientConfig
deriving DecidableEq, Repr

/-- The literal configuration hard-coded in `create_ultra_optimized_client`
(`limits`, `timeout`, `transport`, `headers`, and the keyword arguments of the
`httpx.AsyncClient(...)` call). -/
def ultraConfig : ClientConfig :=
  { limits :=
      { max_keepalive_connections := 50
        max_connections := 200
        keepalive_expiry := 60 }
    timeout :=
      { connect := 2
        read := 8
        write := 2
        pool := 1/2 }
    transport :=
      { http2 := true
        retries := 1 }
    headers :=
      [ ("Connection", "keep-alive")
      , ("Keep-Alive", "timeout=60, max=200")
      , ("User-Agent", "mem0-ultra-optimized/1.0")
      , ("Accept-Encoding", "gzip, deflate, br")
      , ("Cache-Control", "no-cache")
      , ("Pragma", "no-cache")
      , ("Upgrade-Insecure-Requests", "1") ]
    http2 := true
    follow_redirects := true
    trust_env := false }

/-- `create_ultra_optimized_client(api_key)`: builds the hard-coded limits,
timeout, transport and headers, the `httpx.AsyncClient` over them, and wraps
it in an `AsyncMemoryClient` bound to `api_key`.  The function takes no
configuration argument: every numeric setting is a literal in its body. -/
def create_ultra_optimized_client (api_key : String) : Client :=
  { api_key := api_key, config := ultraConfig }

/-- The spec's input constraint on a `ClientConfig`: all numeric fields
positive. -/
def ClientConfig.positiveFields (c : ClientConfig) : Prop :=
  0 < c.limits.max_keepalive_connections ∧
  0 < c.limits.max_connections ∧
  0 < c.limits.keepalive_expiry ∧
  0 < c.timeout.connect ∧
  0 < c.timeout.read ∧
  0 < c.timeout.write ∧
  0 < c.timeout.pool ∧
  0 < c.transport.retries

instance (c : ClientConfig) : Decidable c.positiveFields := by
  unfold ClientConfig.positiveFields
  infer_instance

/-- `warm_up_connection(client, query, user_id)`: issues one search call
inside `try/except Exception`.  On return it logs the completion line and
returns `True`; on an exception it logs the failure and returns `False`.  The
result is `Except.ok` in both branches: the `except` clause swallows the
exception, so nothing propagates to the caller.  Logged lines are paired with
the boolean result. -/
def warm_up_connection (o : SearchOutcome) : Except String (Bool × List String) :=
  match searchCall o with
  | .ok _ => .ok (true, ["Warming up connection...", "Warmup completed"])
  | .error e =>
      .ok (false,
        ["Warming up connection...", "Warmup failed: " ++ e,
         "Continuing with tests anyway..."])

/-- Aggregate over a run, mirroring lines 115-118: `count`, `min(latencies)`,
`max(latencies)`, `sum(latencies)/len(latencies)`. -/
structure RunResult where
  count : Nat
  minL : ℚ
  maxL : ℚ
  mean : ℚ
deriving DecidableEq, Repr

/-- The statistics step guarded by `if latencies:`: on a non-empty sample
list it computes count, min, max and the mean `sum/len`; on the empty list
the guard fails and no statistic (in particular no division) is computed,
signalled here by `none`. -/
def aggregate (latencies : List ℚ) : Option RunResult :=
  match latencies with
  | [] => none
  | l :: ls =>
      some
        { count := (l :: ls).length
          minL := ls.foldl min l
          maxL := ls.foldl max l
          mean := (l :: ls).sum / ((l :: ls).length : ℚ) }

/-- Verdict of the final comparison in `benchmark_original_vs_optimized`. -/
inductive Verdict where
  | improved (pct : ℚ)
  | noImprovement
deriving DecidableEq, Repr

/-- Lines 204-208: `if opt_avg < orig_avg:` report the improvement percentage
`((orig_avg - opt_avg) / orig_avg) * 100`, else report no improvement. -/
def compareMeans (origAvg optAvg : ℚ) : Verdict :=
  if optAvg < origAvg then .improved ((origAvg - optAvg) / origAvg * 100)
  else .noImprovement

/-- Observable lifecycle and request events of a run.  A client is identified
by the order of its construction in the run (`0` for the first client, `1`
for the second).  `issued cid k` marks request `k` of the measurement loop on
client `cid` being sent (`start = time(); await client.search(...)`);
`stopped cid k` marks its timer being read (`end = time()`), which happens
only when the call returned. -/
inductive Event where
  | created (cid : Nat)
  | closed (cid : Nat)
  | warmupCall (cid : Nat)
  | issued (cid : Nat) (k : Nat)
  | stopped (cid : Nat) (k : Nat)
deriving DecidableEq, Repr

/-- Number of `issued cid _` events for client `cid` in a trace. -/
def issuedCount (cid : Nat) (t : List Event) : Nat :=
  t.countP fun e =>
    match e with
    | .issued c _ => c == cid
    | _ => false

/-- The fully sequential event shape of `m` successful measured requests on
client `cid`, starting at request index `k`: request `k` is issued, its timer
stopped, and only then is request `k+1` issued. -/
def seqEvents (cid : Nat) (k : Nat) : Nat → List Event
  | 0 => []
  | m + 1 => .issued cid k :: .stopped cid k :: seqEvents cid (k + 1) m

/-- Relative index of the first erring call among `env k, env (k+1), ...`,
looking at most `fuel` calls ahead. -/
def firstErr (env : Nat → SearchOutcome) (k : Nat) : Nat → Option Nat
  | 0 => none
  | m + 1 =>
      match env k with
      | .err _ => some 0
      | .ok _ _ => (firstErr env (k + 1) m).map (· + 1)

/-- Latencies of the successful calls among `env k, ..., env (k + m - 1)`, in
call order. -/
def okLatencies (env : Nat → SearchOutcome) (k : Nat) : Nat → List ℚ
  | 0 => []
  | m + 1 =>
      match env k with
      | .ok l _ => l :: okLatencies env (k + 1) m
      | .err _ => okLatencies env (k + 1) m

/-- Exception message of an outcome (`""` for a successful call; used only at
indices `firstErr` points at, which are erring). -/
def errMsg (o : SearchOutcome) : String :=
  match o with
  | .err m => m
  | .ok _ _ => ""

/-- The measurement loop of `test_ultra_optimized` (lines 101-112): for each
`i in range(5)`, take the time, `await client.search(...)`, take the time
again and append the latency.  There is no `try/except` around the call, so
an exception leaves the loop at once and propagates.  Returns the collected
latencies, the propagating exception message (if any), and the event trace;
`k` is the index of the next request, `fuel` the remaining iterations. -/
def testMeasureLoop (env : Nat → SearchOutcome) (k : Nat) :
    Nat → List ℚ × Option String × List Event
  | 0 => ([], none, [])
  | fuel + 1 =>
      match env k with
      | .ok lat _ =>
          let r := testMeasureLoop env (k + 1) fuel
          (lat :: r.1, r.2.1, .issued 0 k :: .stopped 0 k :: r.2.2)
      | .err msg => ([], some msg, [.issued 0 k])

/-- One measurement loop of `benchmark_original_vs_optimized` (lines 161-170
and 181-191): each iteration wraps the timed `await client.search(...)` in
`try/except Exception`, so an erring request is logged and the loop goes on to
the next iteration.  Returns the successful latencies and the event trace. -/
def benchMeasureLoop (env : Nat → SearchOutcome) (cid : Nat) (k : Nat) :
    Nat → List ℚ × List Event
  | 0 => ([], [])
  | fuel + 1 =>
      match env k with
      | .ok lat _ =>
          let r := benchMeasureLoop env cid (k + 1) fuel
          (lat :: r.1, .issued cid k :: .stopped cid k :: r.2)
      | .err _ =>
          let r := benchMeasureLoop env cid (k + 1) fuel
          (r.1, .issued cid k :: r.2)

/-- Result of one run of `test_ultra_optimized`. -/
structure TestRun where
  client : Client
  latencies : List ℚ
  stats : Option RunResult
  raised : Option String
  trace : List Event
deriving Repr

/-- `test_ultra_optimized` issues 5 measured requests (`for i in range(5)`). -/
def TEST_REQUESTS : Nat := 5

/-- `test_ultra_optimized()`: creates the ultra-optimized client, then inside
`try`: warms up (exceptions swallowed by `warm_up_connection`), runs the
measurement loop, and — reached only when no measured request raised —
computes the statistics guarded by `if latencies:`; the `finally` block closes
the client on every exit path, after which a pending exception propagates.
`envWarm` fixes the warm-up call's outcome, `envMeasure k` the outcome of
measured request `k`. -/
def test_ultra_optimized (envWarm : SearchOutcome)
    (envMeasure : Nat → SearchOutcome) : TestRun :=
  let client := create_ultra_optimized_client "m0-REDACTED"
  let _warm := warm_up_connection envWarm
  let r := testMeasureLoop envMeasure 0 TEST_REQUESTS
  { client := client
    latencies := r.1
    stats :=
      match r.2.1 with
      | some _ => none
      | none => aggregate r.1
    raised := r.2.1
    trace := [.created 0, .warmupCall 0] ++ r.2.2 ++ [.closed 0] }

/-- Result of one run of `benchmark_original_vs_optimized`. -/
structure BenchRun where
  originalLatencies : List ℚ
  optimizedLatencies : List ℚ
  verdict : Option Verdict
  trace : List Event
deriving Repr

/-- Each loop of `benchmark_original_vs_optimized` issues 3 requests
(`for i in range(3)`). -/
def BENCH_REQUESTS : Nat := 3

/-- `benchmark_original_vs_optimized()`: builds the default client (client 0),
measures 3 requests with per-request exception handling, closes it; builds the
ultra-optimized client (client 1), warms it up (exceptions swallowed),
measures 3 requests likewise, closes it; then, only when both latency lists
are non-empty (`if original_latencies and optimized_latencies:`), computes the
two means and the comparison verdict. -/
def benchmark_original_vs_optimized (envOrig : Nat → SearchOutcome)
    (envWarm : SearchOutcome) (envOpt : Nat → SearchOutcome) : BenchRun :=
  let ro := benchMeasureLoop envOrig 0 0 BENCH_REQUESTS
  let _optimized_client := create_ultra_optimized_client "m0-REDACTED"
  let _warm := warm_up_connection envWarm
  let rp := benchMeasureLoop envOpt 1 0 BENCH_REQUESTS
  { originalLatencies := ro.1
    optimizedLatencies := rp.1
    verdict :=
      if ro.1 ≠ [] ∧ rp.1 ≠ [] then
        some (compareMeans (ro.1.sum / (ro.1.length : ℚ))
          (rp.1.sum / (rp.1.length : ℚ)))
      else none
    trace :=
      [.created 0] ++ ro.2 ++ [.closed 0] ++
        [.created 1, .warmupCall 1] ++ rp.2 ++ [.closed 1] }

/-- A well-formed configuration (all numeric fields positive) whose pool
limit is 7 rather than the hard-coded 200. -/
def cfgSeven : ClientConfig :=
  { ultraConfig with
      limits :=
        { max_keepalive_connections := 5
          max_connections := 7
          keepalive_expiry := 30 } }

/-- The spec's error scenario for the measurement loop: the endpoint raises
on calls 2 and 4 of 5 (0-based indices 1 and 3) and succeeds otherwise. -/
def envTwoFailures : Nat → SearchOutcome := fun k =>
  if k == 1 || k == 3 then .err "boom" else .ok 1 2

/-- An environment in which only the third measured call (0-based index 2)
raises. -/
def envThirdFails : Nat → SearchOutcome := fun k =>
  if k == 2 then .err "fail" else .ok 1 2

/-- An environment in which every call raises. -/
def envAllFail : Nat → SearchOutcome := fun _ => .err "down"

/-! ### Helper lemmas -/

/-- Folding `min` over a list never exceeds the initial accumulator. -/
lemma foldl_min_le_init (ls : List ℚ) : ∀ a : ℚ, ls.foldl min a ≤ a := by
  induction ls with
  | nil => intro a; simp
  | cons b t ih =>
      intro a
      have h := ih (min a b)
      simpa using le_trans h (min_le_left a b)

/-- Folding `min` over a list is a lower bound on its members. -/
lemma foldl_min_le_mem (ls : List ℚ) :
    ∀ (a x : ℚ), x ∈ ls → ls.foldl min a ≤ x := by
  induction ls with
  | nil => intro a x hx; simp at hx
  | cons b t ih =>
      intro a x hx
      rcases List.mem_cons.mp hx with rfl | hx2
      · simpa using le_trans (foldl_min_le_init t (min a x)) (min_le_right a x)
      · simpa using ih (min a b) x hx2

/-- Folding `max` over a list is at least the initial accumulator. -/
lemma le_foldl_max_init (ls : List ℚ) : ∀ a : ℚ, a ≤ ls.foldl max a := by
  induction ls with
  | nil => intro a; simp
  | cons b t ih =>
      intro a
      have h := ih (max a b)
      simpa using le_trans (le_max_left a b) h

/-- Folding `max` over a list is an upper bound on its members. -/
lemma le_foldl_max_mem (ls : List ℚ) :
    ∀ (a x : ℚ), x ∈ ls → x ≤ ls.foldl max a := by
  induction ls with
  | nil => intro a x hx; simp at hx
  | cons b t ih =>
      intro a x hx
      rcases List.mem_cons.mp hx with rfl | hx2
      · simpa using le_trans (le_max_right a x) (le_foldl_max_init t (max a x))
      · simpa using ih (max a b) x hx2

/-- A uniform lower bound on the members of a list bounds its sum from below. -/
lemma len_mul_le_sum (ls : List ℚ) :
    ∀ m : ℚ, (∀ x ∈ ls, m ≤ x) → (ls.length : ℚ) * m ≤ ls.sum := by
  induction ls with
  | nil => intro m _; simp
  | cons b t ih =>
      intro m h
      have hb : m ≤ b := h b (List.mem_cons_self b t)
      have ht := ih m (fun x hx => h x (List.mem_cons_of_mem b hx))
      simp only [List.length_cons, List.sum_cons]
      push_cast
      linarith

/-- A uniform upper bound on the members of a list bounds its sum from above. -/
lemma sum_le_len_mul (ls : List ℚ) :
    ∀ M : ℚ, (∀ x ∈ ls, x ≤ M) → ls.sum ≤ (ls.length : ℚ) * M := by
  induction ls with
  | nil => intro M _; simp
  | cons b t ih =>
      intro M h
      have hb : b ≤ M := h b (List.mem_cons_self b t)
      have ht := ih M (fun x hx => h x (List.mem_cons_of_mem b hx))
      simp only [List.length_cons, List.sum_cons]
      push_cast
      linarith

/-- Characterization of the `test_ultra_optimized` measurement loop: with no
erring call in the window, it collects every latency and produces the fully
sequential trace; with a first erring call at relative index `j`, it collects
the `j` latencies before it, propagates that call's exception, and its trace
is the sequential trace of the first `j` requests followed by the single
issued-but-never-stopped erring request. -/
lemma testMeasureLoop_spec (env : Nat → SearchOutcome) :
    ∀ (fuel k : Nat),
      testMeasureLoop env k fuel =
        match firstErr env k fuel with
        | none => (okLatencies env k fuel, none, seqEvents 0 k fuel)
        | some j =>
            (okLatencies env k j, some (errMsg (env (k + j))),
              seqEvents 0 k j ++ [.issued 0 (k + j)]) := by
  intro fuel
  induction fuel with
  | zero => intro k; rfl
  | succ m ih =>
      intro k
      cases he : env k with
      | err msg =>
          simp [testMeasureLoop, firstErr, he, okLatencies, seqEvents, errMsg]
      | ok lat items =>
          have ihk := ih (k + 1)
          cases hf : firstErr env (k + 1) m with
          | none =>
              simp [testMeasureLoop, firstErr, he, hf, okLatencies, seqEvents,
                ihk]
          | some j =>
              have harith : k + (j + 1) = k + 1 + j := by omega
              simp only [testMeasureLoop, firstErr, he, hf, Option.map_some',
                ihk, harith]
              simp [okLatencies, seqEvents, he]

/-- The latencies collected by a benchmark measurement loop are exactly the
latencies of the successful calls in its window, in order. -/
lemma benchMeasureLoop_fst (env : Nat → SearchOutcome) (cid : Nat) :
    ∀ (fuel k : Nat),
      (benchMeasureLoop env cid k fuel).1 = okLatencies env k fuel := by
  intro fuel
  induction fuel with
  | zero => intro k; rfl
  | succ m ih =>
      intro k
      cases he : env k with
      | err msg => simp [benchMeasureLoop, he, okLatencies, ih]
      | ok lat items => simp [benchMeasureLoop, he, okLatencies, ih]

/-- Prepending an issued event adds one to the count for its client and
leaves other clients' counts unchanged. -/
lemma issuedCount_cons_issued (cid a k : Nat) (t : List Event) :
    issuedCount cid (.issued a k :: t) =
      issuedCount cid t + (if a = cid then 1 else 0) := by
  by_cases h : a = cid <;> simp [issuedCount, List.countP_cons, h]

/-- Prepending a stopped event leaves issued counts unchanged. -/
lemma issuedCount_cons_stopped (cid a k : Nat) (t : List Event) :
    issuedCount cid (.stopped a k :: t) = issuedCount cid t := by
  simp [issuedCount, List.countP_cons]

/-- A benchmark measurement loop of `fuel` iterations issues exactly `fuel`
requests on its own client and none on any other client. -/
lemma issuedCount_bench (env : Nat → SearchOutcome) (cid c : Nat) :
    ∀ (fuel k : Nat),
      issuedCount c (benchMeasureLoop env cid k fuel).2 =
        if c = cid then fuel else 0 := by
  intro fuel
  induction fuel with
  | zero => intro k; simp [benchMeasureLoop, issuedCount]
  | succ m ih =>
      intro k
      cases he : env k with
      | err msg =>
          simp only [benchMeasureLoop, he, issuedCount_cons_issued, ih (k + 1)]
          by_cases hc : c = cid
          · simp [hc]
          · simp [hc]; omega
      | ok lat items =>
          simp only [benchMeasureLoop, he, issuedCount_cons_issued,
            issuedCount_cons_stopped, ih (k + 1)]
          by_cases hc : c = cid
          · simp [hc]
          · simp [hc]; omega

/-- `seqEvents cid s m` contains exactly `m` issued events for client `cid`. -/
lemma issuedCount_seqEvents (cid : Nat) :
    ∀ (m s : Nat), issuedCount cid (seqEvents cid s m) = m := by
  intro m
  induction m with
  | zero => intro s; simp [seqEvents, issuedCount]
  | succ n ih =>
      intro s
      simp [seqEvents, issuedCount_cons_issued, issuedCount_cons_stopped,
        ih (s + 1)]

/-- `issuedCount` distributes over trace concatenation. -/
lemma issuedCount_append (cid : Nat) (t u : List Event) :
    issuedCount cid (t ++ u) = issuedCount cid t + issuedCount cid u := by
  simp [issuedCount, List.countP_append]

/-- The index returned by `firstErr` lies inside the searched window. -/
lemma firstErr_lt (env : Nat → SearchOutcome) :
    ∀ (fuel k j : Nat), firstErr env k fuel = some j → j < fuel := by
  intro fuel
  induction fuel with
  | zero => intro k j h; simp [firstErr] at h
  | succ m ih =>
      intro k j h
      cases he : env k with
      | err msg =>
          simp [firstErr, he] at h
          omega
      | ok lat items =>
          simp [firstErr, he] at h
          rcases h with ⟨j2, hj2, rfl⟩
          have := ih (k + 1) j2 hj2
          omega

/-- No client-creation event occurs inside a sequential request trace. -/
lemma created_not_mem_seqEvents (c cid : Nat) :
    ∀ (m s : Nat), Event.created c ∉ seqEvents cid s m := by
  intro m
  induction m with
  | zero => intro s; simp [seqEvents]
  | succ n ih => intro s; simp [seqEvents, ih (s + 1)]

/-- No client-creation event occurs inside the trace of the
`test_ultra_optimized` measurement loop. -/
lemma created_not_mem_testLoop (c : Nat) (env : Nat → SearchOutcome) :
    ∀ (fuel k : Nat), Event.created c ∉ (testMeasureLoop env k fuel).2.2 := by
  intro fuel
  induction fuel with
  | zero => intro k; simp [testMeasureLoop]
  | succ m ih =>
      intro k
      cases he : env k with
      | err msg => simp [testMeasureLoop, he]
      | ok lat items => simp [testMeasureLoop, he, ih (k + 1)]

/-- No client-creation event occurs inside the trace of a benchmark
measurement loop. -/
lemma created_not_mem_benchLoop (c : Nat) (env : Nat → SearchOutcome)
    (cid : Nat) :
    ∀ (fuel k : Nat), Event.created c ∉ (benchMeasureLoop env cid k fuel).2 := by
  intro fuel
  induction fuel with
  | zero => intro k; simp [benchMeasureLoop]
  | succ m ih =>
      intro k
      cases he : env k with
      | err msg => simp [benchMeasureLoop, he, ih (k + 1)]
      | ok lat items => simp [benchMeasureLoop, he, ih (k + 1)]

/-- One-step unfolding of `firstErr` (useful at numeric literals). -/
lemma firstErr_succ (env : Nat → SearchOutcome) (k fuel : Nat) :
    firstErr env k (fuel + 1) =
      match env k with
      | .err _ => some 0
      | .ok _ _ => (firstErr env (k + 1) fuel).map (· + 1) := rfl

/-- One-step unfolding of `okLatencies` (useful at numeric literals). -/
lemma okLatencies_succ (env : Nat → SearchOutcome) (k fuel : Nat) :
    okLatencies env k (fuel + 1) =
      match env k with
      | .ok l _ => l :: okLatencies env (k + 1) fuel
      | .err _ => okLatencies env (k + 1) fuel := rfl

/-- Prepending a created, closed or warmup event leaves issued counts
unchanged. -/
lemma issuedCount_cons_other (cid : Nat) (e : Event) (t : List Event)
    (h : ∀ a k, e ≠ .issued a k) :
    issuedCount cid (e :: t) = issuedCount cid t := by
  cases e with
  | issued a k => exact absurd rfl (h a k)
  | created a => simp [issuedCount, List.countP_cons]
  | closed a => simp [issuedCount, List.countP_cons]
  | warmupCall a => simp [issuedCount, List.countP_cons]
  | stopped a k => simp [issuedCount, List.countP_cons]

/-- If no call in the window succeeds, no latency is collected. -/
lemma okLatencies_nil (env : Nat → SearchOutcome) :
    ∀ (m k : Nat), (∀ j, j < m → (env (k + j)).isOk = false) →
      okLatencies env k m = [] := by
  intro m
  induction m with
  | zero => intro k _; rfl
  | succ n ih =>
      intro k h
      have h0 := h 0 (Nat.succ_pos n)
      simp only [Nat.add_zero] at h0
      cases he : env k with
      | ok l i => rw [he] at h0; simp [SearchOutcome.isOk] at h0
      | err m2 =>
          simp only [okLatencies_succ, he]
          apply ih (k + 1)
          intro j hj
          have hjj := h (j + 1) (by omega)
          have harith : k + (j + 1) = k + 1 + j := by omega
          rw [harith] at hjj
          exact hjj

/-- The first measured request is always issued by the
`test_ultra_optimized` loop. -/
lemma issued_mem_testLoop (env : Nat → SearchOutcome) (k m : Nat) :
    Event.issued 0 k ∈ (testMeasureLoop env k (m + 1)).2.2 := by
  cases he : env k <;> simp [testMeasureLoop, he]

/-! ### Claim theorems -/

/-- Claim C9 (confirmed): aggregation of a single-element sample sequence
`[s]` returns minimum = maximum = mean = `s` (with count 1). -/
theorem aggregate_singleton (s : ℚ) :
    aggregate [s] = some { count := 1, minL := s, maxL := s, mean := s } := by
  simp [aggregate]

/-- Claim C10 (confirmed): `warm_up_connection` never lets an exception
propagate to its caller — its `try/except` returns a boolean in both branches
— and it returns `True` exactly when the underlying search call returned
without raising (so `False` on any exception). -/
theorem warm_up_connection_spec (o : SearchOutcome) :
    ∃ b logs, warm_up_connection o = Except.ok (b, logs) ∧
      (b = true ↔ ∃ v, searchCall o = Except.ok v) := by
  cases o with
  | ok l i => exact ⟨true, _, rfl, by simp [searchCall]⟩
  | err m => exact ⟨false, _, rfl, by simp [searchCall]⟩

/-- Claim C6 (confirmed): the comparison declares the optimized result
improved over the original iff its mean is strictly smaller; the reported
percentage equals exactly `(origAvg - optAvg) / origAvg * 100`; and when the
optimized mean is half a positive original mean the report is exactly 50. -/
theorem compareMeans_spec (a b : ℚ) :
    ((∃ p, compareMeans a b = .improved p) ↔ b < a) ∧
    (∀ p, compareMeans a b = .improved p → p = (a - b) / a * 100) ∧
    (0 < a → b = a / 2 → compareMeans a b = .improved 50) := by
  refine ⟨?_, ?_, ?_⟩
  · constructor
    · rintro ⟨p, hp⟩
      by_contra hba
      simp [compareMeans, hba] at hp
    · intro hba
      exact ⟨(a - b) / a * 100, by simp [compareMeans, hba]⟩
  · intro p hp
    by_cases hba : b < a
    · simp [compareMeans, hba] at hp
      exact hp.symm
    · simp [compareMeans, hba] at hp
  · rintro ha rfl
    have hba : a / 2 < a := by linarith
    have ha0 : a ≠ 0 := ne_of_gt ha
    simp only [compareMeans, if_pos hba]
    have hpct : (a - a / 2) / a * 100 = 50 := by
      field_simp
      ring
    rw [hpct]

/-- Witness for C6 at origAvg = 2 and optAvg = 1 = 2/2: reported improvement
is exactly 50. -/
theorem compareMeans_spec_witness : compareMeans 2 1 = .improved 50 :=
  (compareMeans_spec 2 1).2.2 (by norm_num) (by norm_num)

/-- Claim C8 (confirmed): whenever aggregation returns a result, its minimum
is at most its arithmetic mean, which is at most its maximum. -/
theorem aggregate_min_le_mean_le_max (lats : List ℚ) (r : RunResult)
    (h : aggregate lats = some r) : r.minL ≤ r.mean ∧ r.mean ≤ r.maxL := by
  cases lats with
  | nil => simp [aggregate] at h
  | cons l ls =>
      simp only [aggregate, Option.some.injEq] at h
      subst h
      have hn : (0 : ℚ) < ((l :: ls).length : ℚ) := by
        exact_mod_cast Nat.succ_pos ls.length
      have hminmem : ∀ x ∈ l :: ls, ls.foldl min l ≤ x := by
        intro x hx
        rcases List.mem_cons.mp hx with rfl | hx2
        · exact foldl_min_le_init ls x
        · exact foldl_min_le_mem ls l x hx2
      have hmaxmem : ∀ x ∈ l :: ls, x ≤ ls.foldl max l := by
        intro x hx
        rcases List.mem_cons.mp hx with rfl | hx2
        · exact le_foldl_max_init ls x
        · exact le_foldl_max_mem ls l x hx2
      have h1 := len_mul_le_sum (l :: ls) (ls.foldl min l) hminmem
      have h2 := sum_le_len_mul (l :: ls) (ls.foldl max l) hmaxmem
      constructor
      · rw [le_div_iff₀ hn, mul_comm]
        exact h1
      · rw [div_le_iff₀ hn, mul_comm]
        exact h2

/-- Witness for C8 on the concrete sample list `[1, 2]`. -/
theorem aggregate_min_le_mean_le_max_witness :
    ∃ r, aggregate [(1 : ℚ), 2] = some r ∧ r.minL ≤ r.mean ∧ r.mean ≤ r.maxL := by
  refine ⟨_, rfl, aggregate_min_le_mean_le_max [(1 : ℚ), 2] _ rfl⟩

/-- Claim C2 (refuted as stated): the factory takes no `ClientConfig`
argument — every transport parameter is a literal in its body — so for the
positive configuration `cfgSeven` (pool limit 7) the constructed client's
pool limit, the hard-coded 200, differs from the configured value. -/
theorem create_client_ignores_config :
    ¬ ∀ (key : String) (cfg : ClientConfig), cfg.positiveFields →
        (create_ultra_optimized_client key).config.limits.max_connections =
          cfg.limits.max_connections := by
  intro h
  have h7 := h "k" cfgSeven
    (by norm_num [ClientConfig.positiveFields, cfgSeven, ultraConfig])
  simp [create_ultra_optimized_client, ultraConfig, cfgSeven] at h7

/-- Claim C2 (amended): `create_ultra_optimized_client` takes only the API
key; for every key it succeeds and returns a client bound to that key whose
transport configuration is the fixed hard-coded bundle — pool limit 200, 50
keep-alive connections, keep-alive expiry 60 s — and that fixed bundle does
satisfy the positive-numeric-fields constraint. -/
theorem create_client_fixed_config (key : String) :
    (create_ultra_optimized_client key).api_key = key ∧
    (create_ultra_optimized_client key).config = ultraConfig ∧
    (create_ultra_optimized_client key).config.limits.max_connections = 200 ∧
    (create_ultra_optimized_client key).config.limits.max_keepalive_connections
      = 50 ∧
    (create_ultra_optimized_client key).config.limits.keepalive_expiry = 60 ∧
    ultraConfig.positiveFields :=
  ⟨rfl, rfl, rfl, rfl, rfl,
    by norm_num [ClientConfig.positiveFields, ultraConfig]⟩

/-- Claim C4 (confirmed): a warm-up exception is caught and logged,
`warm_up_connection` returns `False` normally, and the measurement phase that
follows still executes — request 0 is issued, and the collected latencies,
statistics and propagated exception of the run are exactly those of the same
run under any other warm-up outcome. -/
theorem warmup_failure_nonfatal (msg : String) (envW : SearchOutcome)
    (envM : Nat → SearchOutcome) :
    warm_up_connection (.err msg) =
      Except.ok (false,
        ["Warming up connection...", "Warmup failed: " ++ msg,
         "Continuing with tests anyway..."]) ∧
    Event.issued 0 0 ∈ (test_ultra_optimized (.err msg) envM).trace ∧
    (test_ultra_optimized (.err msg) envM).latencies =
      (test_ultra_optimized envW envM).latencies ∧
    (test_ultra_optimized (.err msg) envM).stats =
      (test_ultra_optimized envW envM).stats ∧
    (test_ultra_optimized (.err msg) envM).raised =
      (test_ultra_optimized envW envM).raised := by
  refine ⟨rfl, ?_, rfl, rfl, rfl⟩
  have hmem5 : Event.issued 0 0 ∈ (testMeasureLoop envM 0 TEST_REQUESTS).2.2 :=
    issued_mem_testLoop envM 0 4
  simp [test_ultra_optimized, List.mem_append, hmem5]

/-- Claim C5 (confirmed): aggregation over the empty sample list signals
"no data" (`none`) — the mean's division sits inside the non-empty branch
only, so it is never reached — and in every run in which zero measured
requests succeed, no statistics and no verdict are computed. -/
theorem aggregate_empty_no_data (envO : Nat → SearchOutcome)
    (envW : SearchOutcome) (envP : Nat → SearchOutcome)
    (envW2 : SearchOutcome) (envM : Nat → SearchOutcome) :
    aggregate ([] : List ℚ) = none ∧
    ((∀ k, k < BENCH_REQUESTS → (envO k).isOk = false) →
      (benchmark_original_vs_optimized envO envW envP).originalLatencies = [] ∧
      (benchmark_original_vs_optimized envO envW envP).verdict = none) ∧
    ((envM 0).isOk = false →
      (test_ultra_optimized envW2 envM).latencies = [] ∧
      (test_ultra_optimized envW2 envM).stats = none) := by
  refine ⟨rfl, ?_, ?_⟩
  · intro h
    have hnil : okLatencies envO 0 BENCH_REQUESTS = [] := by
      apply okLatencies_nil
      intro j hj
      simpa using h j hj
    constructor
    · simp [benchmark_original_vs_optimized, benchMeasureLoop_fst, hnil]
    · simp [benchmark_original_vs_optimized, benchMeasureLoop_fst, hnil]
  · intro h
    cases he : envM 0 with
    | ok l i => rw [he] at h; simp [SearchOutcome.isOk] at h
    | err m =>
        have hf : firstErr envM 0 TEST_REQUESTS = some 0 := by
          rw [show TEST_REQUESTS = 4 + 1 from rfl, firstErr_succ, he]
        have hspec := testMeasureLoop_spec envM TEST_REQUESTS 0
        rw [hf] at hspec
        simp only [okLatencies, seqEvents, Nat.add_zero, List.nil_append]
          at hspec
        constructor
        · simp [test_ultra_optimized, hspec]
        · simp [test_ultra_optimized, hspec]

/-- Witness for C5: a run in which every request raises produces no verdict
and no statistics. -/
theorem aggregate_empty_no_data_witness :
    (benchmark_original_vs_optimized envAllFail (.err "down") envAllFail).verdict
      = none ∧
    (test_ultra_optimized (.err "down") envAllFail).stats = none := by
  constructor
  · exact ((aggregate_empty_no_data envAllFail (.err "down") envAllFail
      (.err "down") envAllFail).2.1 (by decide)).2
  · exact ((aggregate_empty_no_data envAllFail (.err "down") envAllFail
      (.err "down") envAllFail).2.2 (by decide)).2

/-- Claim C3 (confirmed): in both runs and under every environment —
including those in which warm-up or measured requests raise — every
constructed client is closed: any `created c` event in a run's trace is
matched by a `closed c` event in the same trace. -/
theorem clients_closed (envW : SearchOutcome) (envM : Nat → SearchOutcome)
    (envO : Nat → SearchOutcome) (envW2 : SearchOutcome)
    (envP : Nat → SearchOutcome) :
    (∀ c, Event.created c ∈ (test_ultra_optimized envW envM).trace →
      Event.closed c ∈ (test_ultra_optimized envW envM).trace) ∧
    (∀ c, Event.created c ∈
        (benchmark_original_vs_optimized envO envW2 envP).trace →
      Event.closed c ∈ (benchmark_original_vs_optimized envO envW2 envP).trace) := by
  constructor
  · intro c hc
    simp [test_ultra_optimized, List.mem_append,
      created_not_mem_testLoop c envM TEST_REQUESTS 0] at hc
    subst hc
    simp [test_ultra_optimized, List.mem_append]
  · intro c hc
    simp [benchmark_original_vs_optimized, List.mem_append,
      created_not_mem_benchLoop c envO 0 BENCH_REQUESTS 0,
      created_not_mem_benchLoop c envP 1 BENCH_REQUESTS 0] at hc
    rcases hc with rfl | rfl <;>
      simp [benchmark_original_vs_optimized, List.mem_append]

/-- Witness for C3 on a run whose warm-up and every measured request raise:
the client is still closed. -/
theorem clients_closed_witness :
    Event.closed 0 ∈ (test_ultra_optimized (.err "down") envAllFail).trace :=
  (clients_closed (.err "down") envAllFail envAllFail (.err "down")
    envAllFail).1 0 (by decide)

/-- Claim C1 (refuted as stated): in the `test_ultra_optimized` measurement
loop, under the spec's own scenario — the endpoint raising on calls 2 and 4
of 5 — only 2 of the 5 attempts are issued: the exception of call 2 aborts
the loop rather than being recorded as a failure, the run ends with that
exception, and no aggregate is computed. -/
theorem test_loop_aborts_on_error :
    issuedCount 0 (test_ultra_optimized (.ok 1 2) envTwoFailures).trace = 2 ∧
    issuedCount 0 (test_ultra_optimized (.ok 1 2) envTwoFailures).trace ≠ 5 ∧
    (test_ultra_optimized (.ok 1 2) envTwoFailures).raised = some "boom" ∧
    (test_ultra_optimized (.ok 1 2) envTwoFailures).latencies = [1] ∧
    (test_ultra_optimized (.ok 1 2) envTwoFailures).stats = none := by
  decide

/-- Claim C1 (amended): in `benchmark_original_vs_optimized` each measurement
loop does record an erring request as a failure and continues — all
`BENCH_REQUESTS` attempts are issued on both clients and the latency lists
fed to the aggregate contain exactly the successful samples — whereas in
`test_ultra_optimized` the first erring measured request (relative index `j`)
aborts the loop: exactly `j + 1` requests are issued, the `j` earlier
successful samples are collected but no statistics are computed, and the
exception becomes the run's outcome. -/
theorem measurement_error_handling (envO : Nat → SearchOutcome)
    (envW : SearchOutcome) (envP : Nat → SearchOutcome)
    (envW2 : SearchOutcome) (envM : Nat → SearchOutcome) :
    (benchmark_original_vs_optimized envO envW envP).originalLatencies =
      okLatencies envO 0 BENCH_REQUESTS ∧
    (benchmark_original_vs_optimized envO envW envP).optimizedLatencies =
      okLatencies envP 0 BENCH_REQUESTS ∧
    issuedCount 0 (benchmark_original_vs_optimized envO envW envP).trace =
      BENCH_REQUESTS ∧
    issuedCount 1 (benchmark_original_vs_optimized envO envW envP).trace =
      BENCH_REQUESTS ∧
    (match firstErr envM 0 TEST_REQUESTS with
     | none =>
        (test_ultra_optimized envW2 envM).raised = none ∧
        (test_ultra_optimized envW2 envM).latencies =
          okLatencies envM 0 TEST_REQUESTS ∧
        (test_ultra_optimized envW2 envM).stats =
          aggregate (okLatencies envM 0 TEST_REQUESTS)
     | some j =>
        (test_ultra_optimized envW2 envM).raised = some (errMsg (envM j)) ∧
        (test_ultra_optimized envW2 envM).latencies = okLatencies envM 0 j ∧
        (test_ultra_optimized envW2 envM).stats = none ∧
        issuedCount 0 (test_ultra_optimized envW2 envM).trace = j + 1) := by
  refine ⟨?_, ?_, ?_, ?_, ?_⟩
  · simp [benchmark_original_vs_optimized, benchMeasureLoop_fst]
  · simp [benchmark_original_vs_optimized, benchMeasureLoop_fst]
  · simp only [benchmark_original_vs_optimized, issuedCount_append,
      issuedCount_bench]
    simp [issuedCount, List.countP_cons]
  · simp only [benchmark_original_vs_optimized, issuedCount_append,
      issuedCount_bench]
    simp [issuedCount, List.countP_cons]
  · have hspec := testMeasureLoop_spec envM TEST_REQUESTS 0
    cases hf : firstErr envM 0 TEST_REQUESTS with
    | none =>
        rw [hf] at hspec
        refine ⟨?_, ?_, ?_⟩ <;> simp [test_ultra_optimized, hspec]
    | some j =>
        rw [hf] at hspec
        simp only [Nat.zero_add] at hspec
        refine ⟨?_, ?_, ?_, ?_⟩
        · simp [test_ultra_optimized, hspec]
        · simp [test_ultra_optimized, hspec]
        · simp [test_ultra_optimized, hspec]
        · simp only [test_ultra_optimized, hspec, issuedCount_append,
            issuedCount_seqEvents]
          simp [issuedCount, List.countP_cons]

/-- Claim C7 (refuted as stated): when the third measured call raises, the
measurement phase of `test_ultra_optimized` issues 3 requests, not the
claimed `TEST_REQUESTS = 5`: the exception aborts the loop. -/
theorem test_loop_issue_count_not_n :
    issuedCount 0 (test_ultra_optimized (.ok 1 2) envThirdFails).trace = 3 ∧
    issuedCount 0 (test_ultra_optimized (.ok 1 2) envThirdFails).trace ≠
      TEST_REQUESTS := by
  decide

/-- Claim C7 (amended): requests are issued strictly sequentially with at
most one in flight — the measured part of the trace is literally the
interleaving `issued 0, stopped 0, issued 1, stopped 1, ...`, so request
`k`'s timer is stopped before request `k + 1` is issued, an erring request
being issued last and never stopped — and the measurement phase issues at
most `TEST_REQUESTS` requests, exactly `TEST_REQUESTS` when no measured
request raises. -/
theorem sequential_measurement (envW : SearchOutcome)
    (envM : Nat → SearchOutcome) :
    ((test_ultra_optimized envW envM).trace =
      [.created 0, .warmupCall 0] ++
        (match firstErr envM 0 TEST_REQUESTS with
         | none => seqEvents 0 0 TEST_REQUESTS
         | some j => seqEvents 0 0 j ++ [.issued 0 j]) ++ [.closed 0]) ∧
    issuedCount 0 (test_ultra_optimized envW envM).trace ≤ TEST_REQUESTS ∧
    (firstErr envM 0 TEST_REQUESTS = none →
      issuedCount 0 (test_ultra_optimized envW envM).trace = TEST_REQUESTS) := by
  have hspec := testMeasureLoop_spec envM TEST_REQUESTS 0
  cases hf : firstErr envM 0 TEST_REQUESTS with
  | none =>
      rw [hf] at hspec
      refine ⟨by simp [test_ultra_optimized, hspec], ?_, ?_⟩
      · simp only [test_ultra_optimized, hspec, issuedCount_append,
          issuedCount_seqEvents]
        simp [issuedCount, List.countP_cons]
      · intro _
        simp only [test_ultra_optimized, hspec, issuedCount_append,
          issuedCount_seqEvents]
        simp [issuedCount, List.countP_cons]
  | some j =>
      rw [hf] at hspec
      simp only [Nat.zero_add] at hspec
      have hj : j < TEST_REQUESTS := firstErr_lt envM TEST_REQUESTS 0 j hf
      refine ⟨by simp [test_ultra_optimized, hspec], ?_, ?_⟩
      · simp only [test_ultra_optimized, hspec, issuedCount_append,
          issuedCount_seqEvents]
        simp [issuedCount, List.countP_cons]
        omega
      · intro hnone
        simp at hnone

/-- Witness for C7 on an environment in which every call succeeds: exactly
`TEST_REQUESTS` requests are issued. -/
theorem sequential_measurement_witness :
    issuedCount 0 (test_ultra_optimized (.ok 1 2) (fun _ => .ok 1 2)).trace =
      TEST_REQUESTS :=
  (sequential_measurement (.ok 1 2) (fun _ => .ok 1 2)).2.2 (by decide)
